import Mathlib

/-!
Verification of the run-tracking core of the `agent-runner` repository.

The data model (`ProjectRec`, `RunRec`, `EventRec`, `DB`) is a shallow
embedding of the SQLAlchemy models in `app/models.py`.  The database is a
value; each SQLAlchemy `commit()` in the source is modelled as producing a
new observable `DB` value, and operations that perform several commits
return the list of committed states (the "trace") so that transaction
boundaries are visible to the theorems.

Operations modelled, with their sources:
  * `claimRun`        — the conditional UPDATE in `SimpleAgent.execute_run`
                        (`app/agent.py`, lines 39-46)
  * `logEvent`        — `SimpleAgent._log_event` (`app/agent.py`, 200-214)
  * `executeRun`      — `SimpleAgent.execute_run` (`app/agent.py`, 29-97),
                        parametric in the dispatched execution
  * `simpleDispatch`  — `SimpleAgent._execute_simple_run` (`app/agent.py`, 167-198)
  * `getRunEvents`    — the `/runs/.../events` handler (`app/routes.py`, 108-117)
  * `controlRun`      — the pause/resume/stop handler (`app/routes.py`, 214-236)
  * `createRun`       — the run-creation handler (`app/routes.py`, 49-95)
  * `validateProviderModel` — `app/providers.py`, 471-503
  * `executeWorkflow` — `WorkflowEngine.execute_workflow` (`app/workflows.py`, 71-138)
  * `executeLlmStep`  — `WorkflowEngine._execute_llm_step` (`app/workflows.py`, 156-194)
  * `applyModelOverrides` — `app/workflows.py`, 354-439
-/

/-- Row of the `projects` table (`app/models.py`, class `Project`). -/
structure ProjectRec where
  id : Nat
  name : String
  local_path : String
deriving Repr, DecidableEq

/-- Row of the `runs` table (`app/models.py`, class `Run`).  `options` and
`run_metadata` hold JSON objects in the source; the JSON object is modelled
directly as its key/value list (`none` models SQL NULL). -/
structure RunRec where
  id : Nat
  project_id : Nat
  name : Option String := none
  goal : String := ""
  run_type : String := "agent"
  status : String := "QUEUED"
  current_iteration : Nat := 0
  options : Option (List (String × String)) := none
  run_metadata : Option (List (String × String)) := none
deriving Repr, DecidableEq

/-- Row of the `events` table (`app/models.py`, class `Event`). -/
structure EventRec where
  id : Nat
  run_id : Nat
  type : String
  payload : String
deriving Repr, DecidableEq

/-- The persistent store: the three tables plus the autoincrement counters
(SQL autoincrement ids start at 1). -/
structure DB where
  projects : List ProjectRec := []
  runs : List RunRec := []
  events : List EventRec := []
  nextRunId : Nat := 1
  nextEventId : Nat := 1
deriving Repr, DecidableEq

/-- `db.query(Run).filter(Run.id == run_id).first()`. -/
def findRun (db : DB) (rid : Nat) : Option RunRec :=
  db.runs.find? (fun r => r.id == rid)

/-- Status of a run as seen by an observer of a committed state. -/
def runStatus (db : DB) (rid : Nat) : Option String :=
  (findRun db rid).map (fun r => r.status)

/-- All events of a run, in table order. -/
def eventsFor (db : DB) (rid : Nat) : List EventRec :=
  db.events.filter (fun e => e.run_id == rid)

/-- `SimpleAgent._log_event` (`app/agent.py`, 200-214): insert a new event row
with the next autoincrement id.  It does not commit; commits are the trace
points of the operations below. -/
def logEvent (db : DB) (rid : Nat) (ty payload : String) : DB :=
  { db with
    events := db.events ++ [⟨db.nextEventId, rid, ty, payload⟩],
    nextEventId := db.nextEventId + 1 }

/-- The conditional claim UPDATE of `execute_run` (`app/agent.py`, 39-46):
`UPDATE runs SET status="RUNNING", current_iteration=0
 WHERE id=rid AND status="QUEUED"`, returning the affected row count. -/
def claimRun (db : DB) (rid : Nat) : DB × Nat :=
  let hit : RunRec → Bool := fun r => r.id == rid && r.status == "QUEUED"
  ({ db with
      runs := db.runs.map (fun r =>
        if hit r then { r with status := "RUNNING", current_iteration := 0 } else r) },
   db.runs.countP hit)

/-- REST handler `get_run_events` (`app/routes.py`, 108-117): filter the
events table by `run_id`, apply the cursor filter when `after_id` is given
and positive, and order by id ascending (`insertById`/`sortById` model the
SQL ORDER BY). -/
def insertById (e : EventRec) : List EventRec → List EventRec
  | [] => [e]
  | x :: xs => if e.id ≤ x.id then e :: x :: xs else x :: insertById e xs

/-- Sort a list of events by id ascending (models SQL `ORDER BY events.id ASC`). -/
def sortById : List EventRec → List EventRec
  | [] => []
  | x :: xs => insertById x (sortById xs)

/-- `get_run_events(run_id, after_id)` (`app/routes.py`, 108-117). -/
def getRunEvents (db : DB) (rid : Nat) (afterId : Option Nat) : List EventRec :=
  let q := db.events.filter (fun e => e.run_id == rid)
  let q := match afterId with
    | some k => if 0 < k then q.filter (fun e => k < e.id) else q
    | none => q
  sortById q

/-- `str.lower()` of the source, mapped over the characters (ASCII case
mapping); stated over the character list so that it reduces in proofs. -/
def strLower (s : String) : String := String.mk (s.data.map Char.toLower)

/-- `str.upper()` of the source, mapped over the characters. -/
def strUpper (s : String) : String := String.mk (s.data.map Char.toUpper)

/-- `control_run` (`app/routes.py`, 214-236): validate the action, 404 when
the run does not exist, otherwise set the mapped status and commit, then add
the `RUN_<ACTION>` event and commit again.  The result carries the list of
committed states in order, ending with the final one. -/
def controlRun (db : DB) (rid : Nat) (action : String) : Except Nat (List DB × DB) :=
  let a := strLower action
  if ¬ (a = "pause" ∨ a = "resume" ∨ a = "stop") then
    .error 400
  else
    match db.runs.find? (fun r => r.id == rid) with
    | none => .error 404
    | some _ =>
      let st := if a == "pause" then "PAUSED" else if a == "resume" then "RUNNING" else "STOPPED"
      let db1 := { db with
        runs := db.runs.map (fun r => if r.id == rid then { r with status := st } else r) }
      let db2 := logEvent db1 rid ("RUN_" ++ strUpper a) ""
      .ok ([db1, db2], db2)

/-- Atomicity of one commit step for run `rid`: if the observable status of
the run changed from `pre` to `post`, an event for the run was appended in
that same commit. -/
def stepAtomicB (rid : Nat) (pre post : DB) : Bool :=
  (runStatus pre rid == runStatus post rid) ||
    ((eventsFor pre rid).length < (eventsFor post rid).length)

/-- Atomicity along a trace of committed states starting from `pre`. -/
def traceAtomicB (rid : Nat) (pre : DB) : List DB → Bool
  | [] => true
  | d :: ds => stepAtomicB rid pre d && traceAtomicB rid d ds

/-- Outcome of a dispatched execution (`_execute_simple_run` or
`_execute_workflow_run`): the list of states it committed (in order), the
state of the claimed run ORM object at return time (it may carry pending,
not yet committed, field changes — the final commit of `execute_run`
persists them), and either a returned success boolean or a raised
exception message. -/
structure DispatchRes where
  trace : List DB
  pending : RunRec
  outcome : Except String Bool
deriving Repr

/-- A dispatched execution: takes the state committed so far and the
re-fetched run, produces a `DispatchRes`. -/
def Dispatch : Type := DB → RunRec → DispatchRes

/-- Finalization of `execute_run` (`app/agent.py`, 69-76): set the terminal
status on the run object (whose pending state is `pend`), add the matching
event, and commit both together (one committed state). -/
def finalizeRun (db : DB) (rid : Nat) (pend : RunRec) (success : Bool) : DB :=
  let st := if success then "COMPLETED" else "FAILED"
  let ty := if success then "RUN_COMPLETED" else "RUN_FAILED"
  let payload := if success then "Agent execution completed successfully"
                 else "Agent execution failed"
  let dbS := { db with
    runs := db.runs.map (fun r => if r.id == rid then { pend with status := st } else r) }
  logEvent dbS rid ty payload

/-- The outer exception handler of `execute_run` (`app/agent.py`, 84-92):
re-fetch the run, and when it exists set FAILED, add the error event and
commit.  When the run is absent nothing is committed. -/
def markRunFailed (db : DB) (rid : Nat) (pend : RunRec) (msg : String) : DB :=
  match db.runs.find? (fun r => r.id == rid) with
  | none => db
  | some _ =>
    let dbS := { db with
      runs := db.runs.map (fun r => if r.id == rid then { pend with status := "FAILED" } else r) }
    logEvent dbS rid "RUN_FAILED" ("Error: " ++ msg)

/-- The part of `execute_run` after the dispatch call returned or raised
(`app/agent.py`, 69-94), written over the dispatch RESULT.  `db2` is the
state committed just before dispatch; `mOk` tells whether the best-effort
failure write itself succeeds (the inner `try` of lines 84-92).  Returns
the committed-state trace from `db2` on, the final state, and the boolean
`execute_run` returns.  The Python failure-write failure path rolls the
session back, leaving the last state committed during dispatch. -/
def afterDispatch (db2 : DB) (rid : Nat) (dres : DispatchRes) (mOk : Bool) :
    List DB × DB × Bool :=
  let db3 := dres.trace.getLastD db2
  match dres.outcome with
  | .ok success =>
    let db4 := finalizeRun db3 rid dres.pending success
    (db2 :: dres.trace ++ [db4], db4, success)
  | .error msg =>
    if mOk then
      let db4 := markRunFailed db3 rid dres.pending msg
      (db2 :: dres.trace ++ [db4], db4, false)
    else
      (db2 :: dres.trace, db3, false)

/-- `SimpleAgent.execute_run` (`app/agent.py`, 29-97), parametric in the two
dispatched executions (`wfD` models `_execute_workflow_run`, `simD` models
`_execute_simple_run`) and in whether the best-effort failure write
succeeds.  Returns the trace of committed states, the final state and the
returned boolean; the function is total because the Python body catches
every exception. -/
def executeRun (wfD simD : Dispatch) (mOk : Bool) (db : DB) (rid : Nat) :
    List DB × DB × Bool :=
  let (db1, updated) := claimRun db rid
  if updated ≠ 1 then
    ([db1], db1, false)
  else
    match findRun db1 rid with
    | none => ([db1], db1, false)
    | some run =>
      let db2 := logEvent db1 rid "RUN_STARTED" "Agent execution started"
      let dres := if run.run_type == "workflow" then wfD db2 run else simD db2 run
      let (t, dbf, b) := afterDispatch db2 rid dres mOk
      (db1 :: t, dbf, b)

/-- One phase of `_execute_simple_run`: bump the iteration counter on the
run object, add the phase event, commit. -/
def simplePhase (db : DB) (r : RunRec) (iter : Nat) (ty payload : String) :
    DB × RunRec :=
  let r' := { r with current_iteration := iter }
  let dbS := { db with
    runs := db.runs.map (fun x => if x.id == r.id then r' else x) }
  (logEvent dbS r.id ty payload, r')

/-- `SimpleAgent._execute_simple_run` (`app/agent.py`, 167-198) on the
no-infrastructure-error path: three committed phases (the delays have no
observable effect on the store), then the uncommitted bump to iteration 4
and `return True`.  Infrastructure errors are modelled by quantifying
`executeRun` over arbitrary `Dispatch` values instead. -/
def simpleDispatch : Dispatch := fun db run =>
  let (dbA, r1) := simplePhase db run 1 "AGENT_THINKING" ("Analyzing goal: " ++ run.goal)
  let (dbB, r2) := simplePhase dbA r1 2 "PLAN_GENERATED"
    ("Plan for \x27" ++ run.goal ++ "\x27:\n1. Understand requirements\n2. Design solution\n3. Implement\n4. Test")
  let (dbC, r3) := simplePhase dbB r2 3 "EXECUTING" "Simulating work execution..."
  let r4 := { r3 with current_iteration := 4 }
  ⟨[dbA, dbB, dbC], r4, .ok true⟩

/-- Lookup in a JSON-object-as-list, first binding wins (`dict.get`). -/
def lookupStr (l : List (String × String)) (k : String) : Option String :=
  (l.find? (fun p => p.1 == k)).map (fun p => p.2)

/-- `options[key] = value` on a JSON object: overwrite the existing binding
in place, or append a new one. -/
def setKey (l : List (String × String)) (k v : String) : List (String × String) :=
  if l.any (fun p => p.1 == k) then
    l.map (fun p => if p.1 == k then (k, v) else p)
  else
    l ++ [(k, v)]

/-- `validate_provider_model` (`app/providers.py`, 471-503).  The registry
holds the providers "ollama" and "gemini" (`_init_providers`); `health`
abstracts `provider.check_health()`, `envDefaultProvider` the
`DEFAULT_LLM_PROVIDER` variable, `envDefaultModel` the `DEFAULT_LLM_MODEL`
variable.  Provider defaults: ollama → "gemma3:27b", gemini →
"gemini-1.5-flash".  Python string truthiness: `None` and `""` both fall
through to the default. -/
def validateProviderModel (health : String → Bool)
    (envDefaultProvider envDefaultModel : Option String)
    (provider_name model : Option String) : Except String (String × String) :=
  let defaultProvider := match envDefaultProvider with
    | some p => if p ≠ "" then p else "ollama"
    | none => "ollama"
  let resolved_provider := match provider_name with
    | some p => if p ≠ "" then p else defaultProvider
    | none => defaultProvider
  if ¬ (resolved_provider = "ollama" ∨ resolved_provider = "gemini") then
    .error ("Unknown provider \x27" ++ resolved_provider ++
      "\x27. Available providers: [\x27ollama\x27, \x27gemini\x27]")
  else if ¬ health resolved_provider then
    .error ("Provider \x27" ++ resolved_provider ++
      "\x27 is not available. Check configuration and service status.")
  else
    let provider_default := if resolved_provider = "ollama" then "gemma3:27b" else "gemini-1.5-flash"
    let default_model := match envDefaultModel with
      | some m => if m ≠ "" then m else provider_default
      | none => provider_default
    let resolved_model := match model with
      | some m => if m ≠ "" then m else default_model
      | none => default_model
    .ok (resolved_provider, resolved_model)

/-- Request body of `POST /runs` (`app/routes.py`, class `CreateRunRequest`). -/
structure CreateRunRequest where
  project_id : Nat
  goal : String
  name : Option String := none
  run_type : String := "agent"
  options : Option (List (String × String)) := none
  run_metadata : Option (List (String × String)) := none
deriving Repr, DecidableEq

/-- `create_run` (`app/routes.py`, 49-95), parametric in the validator
(instantiated with `validateProviderModel`) and in the formatted current
time `now` used for the default run name.  Errors carry the HTTP status and
detail; on error nothing is committed, so the store is returned only on
success.  Per the source, `options` defaults to `{}`, the resolved provider
and model are stored back into it, and the options JSON column is NULL only
when the dict is empty (it never is after the two assignments). -/
def createRun (validate : Option String → Option String → Except String (String × String))
    (now : String) (db : DB) (req : CreateRunRequest) :
    Except (Nat × String) (List DB × DB × RunRec) :=
  match db.projects.find? (fun p => p.id == req.project_id) with
  | none => .error (404, "Project with id " ++ toString req.project_id ++ " not found")
  | some _ =>
    let options0 := req.options.getD []
    let provider_name := lookupStr options0 "provider"
    let model_name := lookupStr options0 "model"
    match validate provider_name model_name with
    | .error e => .error (400, e)
    | .ok (resolved_provider, resolved_model) =>
      let options1 := setKey (setKey options0 "provider" resolved_provider) "model" resolved_model
      let run_name := match req.name with
        | some n => if n ≠ "" then n else "Run - " ++ now
        | none => "Run - " ++ now
      let options_json := if options1 = [] then none else some options1
      let run : RunRec :=
        { id := db.nextRunId,
          project_id := req.project_id,
          name := some run_name,
          goal := req.goal,
          run_type := req.run_type,
          status := "QUEUED",
          current_iteration := 0,
          options := options_json,
          run_metadata := req.run_metadata }
      let db1 := { db with runs := db.runs ++ [run], nextRunId := db.nextRunId + 1 }
      let db2 := logEvent db1 run.id "RUN_CREATED" req.goal
      .ok ([db1, db2], db2, run)

/-- `WorkflowStep` (`app/workflows.py`, 28-38).  `step_type` holds the
`WorkflowStepType` enum value string. -/
structure WfStep where
  name : String
  step_type : String
  description : String := ""
  model : Option String := none
  prompt : Option String := none
  output_file : Option String := none
  command : Option String := none
  save_artifact : Bool := false
deriving Repr, DecidableEq

/-- `Workflow` (`app/workflows.py`, 41-47). -/
structure Workflow where
  name : String
  version : String
  description : String := ""
  steps : List WfStep
deriving Repr, DecidableEq

/-- A notification sent through the progress callback:
`(event_type, message, artifact_path)`. -/
abbrev EvTuple : Type := String × String × Option String

/-- The result dict of `_execute_step`, restricted to the keys the engine
and the claims inspect (all optional, as dict keys are). -/
structure StepData where
  generated_content : Option String := none
  model : Option String := none
  content_length : Option Nat := none
  artifact_path : Option String := none
  artifact_type : Option String := none
deriving Repr, DecidableEq

/-- The `results` dictionary built by `execute_workflow`
(`app/workflows.py`, 91-96): step entries are `(step_number, name, type,
status)`, artifact entries `(step, path, type)`. -/
structure WfResults where
  workflow_name : String
  workflow_version : String
  steps : List (Nat × String × String × String) := []
  artifacts : List (String × String × String) := []
deriving Repr, DecidableEq

/-- The `for` loop of `execute_workflow` (`app/workflows.py`, 99-124),
parametric in the step executor (`_execute_step`), which returns the
notifications it emitted through the callback together with either its
result dict or a raised exception message.  `i` is the 1-based
`enumerate` index. -/
def execSteps (stepExec : Nat → WfStep → List EvTuple × Except String StepData) :
    Nat → List WfStep → WfResults → List EvTuple × Except String WfResults
  | _, [], acc => ([], .ok acc)
  | i, s :: rest, acc =>
    let started : EvTuple :=
      ("STEP_STARTED", "Step " ++ toString i ++ ": " ++ s.name ++ " - " ++ s.description, none)
    let (subev, res) := stepExec i s
    match res with
    | .error e => (started :: subev, .error e)
    | .ok d =>
      let acc1 := { acc with steps := acc.steps ++ [(i, s.name, s.step_type, "completed")] }
      let acc2 :=
        if s.save_artifact && d.artifact_path.isSome then
          { acc1 with artifacts :=
              acc1.artifacts ++ [(s.name, d.artifact_path.getD "", d.artifact_type.getD "file")] }
        else acc1
      let completed : EvTuple :=
        ("STEP_COMPLETED", "Step " ++ toString i ++ " completed: " ++ s.name, d.artifact_path)
      let (evs, out) := execSteps stepExec (i + 1) rest acc2
      (started :: subev ++ completed :: evs, out)

/-- `WorkflowEngine.execute_workflow` (`app/workflows.py`, 71-138): start
notification, run the steps in order, then either the completion
notification and the results, or — when a step raised — the
`WORKFLOW_FAILED` notification with the error description followed by
re-raising the failure (`raise`, line 138). -/
def executeWorkflow (stepExec : Nat → WfStep → List EvTuple × Except String StepData)
    (wf : Workflow) : List EvTuple × Except String WfResults :=
  let startEv : EvTuple := ("WORKFLOW_STARTED", "Starting " ++ wf.name ++ " v" ++ wf.version, none)
  let init : WfResults := { workflow_name := wf.name, workflow_version := wf.version }
  let (evs, out) := execSteps stepExec 1 wf.steps init
  match out with
  | .ok res =>
    (startEv :: evs ++
      [("WORKFLOW_COMPLETED",
        "Workflow completed successfully with " ++ toString res.artifacts.length ++ " artifacts",
        none)],
     .ok res)
  | .error e =>
    (startEv :: evs ++ [("WORKFLOW_FAILED", "Workflow execution failed: " ++ e, none)],
     .error e)

/-- `WorkflowEngine._execute_llm_step` (`app/workflows.py`, 156-194),
parametric in the provider generation capability `gen prompt model`
(`OllamaProvider.generate`, `app/providers.py`, 102-107, which returns the
generated text or raises).  On success, returns the result dict together
with the list of `(path, content)` file writes performed; the output path
is the step's output file joined under the workspace.  Python truthiness:
a missing or empty model/prompt/output_file is falsy. -/
def executeLlmStep (gen : String → String → Except String String)
    (workspace : String) (s : WfStep) : Except String (StepData × List (String × String)) :=
  let truthy : Option String → Bool := fun o => match o with
    | some v => v ≠ ""
    | none => false
  if ¬ (truthy s.model ∧ truthy s.prompt) then
    .error ("LLM step requires model and prompt: " ++ s.name)
  else
    match s.model, s.prompt with
    | some m, some p =>
      match gen p m with
      | .error e => .error e
      | .ok generated_content =>
        let base : StepData :=
          { generated_content := some generated_content,
            model := some m,
            content_length := some generated_content.length }
        match s.output_file with
        | some f =>
          if f ≠ "" then
            let output_path := workspace ++ "/" ++ f
            .ok ({ base with artifact_path := some output_path,
                             artifact_type := some "generated_file" },
                 [(output_path, generated_content)])
          else .ok (base, [])
        | none => .ok (base, [])
    | _, _ => .error ("LLM step requires model and prompt: " ++ s.name)

/-- `\w` of the description-rewriting regex (`app/workflows.py`, 411). -/
def isWordChar (c : Char) : Bool := c.isAlphanum || c == '_'

/-- Try to match the regex `using \w+` (case-insensitive) at the head of the
character list; on a match return the remainder after the greedy `\w+`. -/
def matchUsing : List Char → Option (List Char)
  | u :: s :: i :: n :: g :: ' ' :: c :: rest =>
    if strLower (String.mk [u, s, i, n, g]) = "using" && isWordChar c then
      some ((c :: rest).dropWhile isWordChar)
    else none
  | _ => none

/-- `re.sub` scan: replace every non-overlapping left-to-right match of
`using \w+` by `repl`.  Fuel-indexed structural recursion; the fuel is the
input length, which bounds the number of scan positions. -/
def subUsingAux (repl : List Char) : Nat → List Char → List Char
  | 0, cs => cs
  | _ + 1, [] => []
  | fuel + 1, c :: cs =>
    match matchUsing (c :: cs) with
    | some rest => repl ++ subUsingAux repl fuel rest
    | none => c :: subUsingAux repl fuel cs

/-- `re.sub(r'using \w+', "using " + short, description, flags=IGNORECASE)`
(`app/workflows.py`, 410-415). -/
def rewriteUsing (description shortName : String) : String :=
  String.mk (subUsingAux ("using ".data ++ shortName.data) description.data.length description.data)

/-- The model-priority chain of `apply_model_overrides`
(`app/workflows.py`, 390-401) for one LLM step: an override entry for the
lowercased step name with a truthy (non-empty) value wins; otherwise the
environment default for that step name (the env map has exactly the keys
"planner" and "coder", from `OLLAMA_PLANNER_MODEL` / `OLLAMA_CODER_MODEL`)
when truthy; otherwise the step's own model. -/
def resolveLlmModel (overrides : List (String × String))
    (envPlanner envCoder : Option String) (s : WfStep) : Option String :=
  let nm := strLower s.name
  let ovHit := match lookupStr overrides nm with
    | some v => v != ""
    | none => false
  if ovHit then
    lookupStr overrides nm
  else
    let envVal := if nm == "planner" then envPlanner
                  else if nm == "coder" then envCoder else none
    match envVal with
    | some w => if w ≠ "" then some w else s.model
    | none => s.model

/-- `apply_model_overrides` (`app/workflows.py`, 354-439): non-LLM steps
pass through unchanged; for LLM steps the model is resolved by
`resolveLlmModel` and, when it changed, the description has its
`using <Word>` mention rewritten (or, when no mention is found, a
`(model: ...)` note appended).  The `none` branch of the description
rewrite is unreachable because a changed model always comes from an
override or environment string. -/
def applyModelOverrides (envPlanner envCoder : Option String)
    (wf : Workflow) (model_overrides : Option (List (String × String))) : Workflow :=
  let overrides := model_overrides.getD []
  let steps := wf.steps.map (fun s =>
    if s.step_type ≠ "llm_generate" then s
    else
      let newModel := resolveLlmModel overrides envPlanner envCoder s
      let newDescription :=
        if newModel ≠ s.model then
          match newModel with
          | some v =>
            let shortName := (v.splitOn ":").headD v
            let d := rewriteUsing s.description shortName
            if d = s.description then s.description ++ " (model: " ++ v ++ ")" else d
          | none => s.description
        else s.description
      { s with model := newModel, description := newDescription })
  { wf with steps := steps }

/-- The `planner` step of the built-in workflow `quarkus-bootstrap-v1`
(`app/workflows.py`, 281-298); the prompt text is elided to its first line,
which no claim inspects. -/
def plannerStep : WfStep :=
  { name := "planner",
    step_type := "llm_generate",
    description := "Create project plan using Gemma3",
    model := some "gemma3:27b",
    prompt := some "You are a software architect planning a Quarkus project with GraphQL and OpenTelemetry.",
    output_file := some "PLAN.md",
    save_artifact := false }

section Helpers

/-- Appending an event row for `rid` extends that run's event list by the
new row and leaves other runs' event lists unchanged. -/
theorem eventsFor_logEvent (db : DB) (rid : Nat) (ty p : String) :
    eventsFor (logEvent db rid ty p) rid
      = eventsFor db rid ++ [⟨db.nextEventId, rid, ty, p⟩] := by
  simp [eventsFor, logEvent, List.filter_append]

/-- Appending an event row does not change any run's observable status. -/
theorem runStatus_logEvent (db : DB) (rid : Nat) (ty p : String) (rid' : Nat) :
    runStatus (logEvent db rid ty p) rid' = runStatus db rid' := rfl

/-- `find?` over a conditional rewrite of the matching elements: when the
rewrite preserves the predicate, the first hit is rewritten. -/
theorem find?_map_if {α : Type} (l : List α) (p : α → Bool) (g : α → α)
    (hg : ∀ x, p x = true → p (g x) = true) :
    ∀ r, l.find? p = some r →
      (l.map (fun x => if p x then g x else x)).find? p = some (g r) := by
  induction l with
  | nil => intro r h; simp [List.find?] at h
  | cons a t ih =>
    intro r h
    by_cases hpa : p a = true
    · rw [List.find?_cons_of_pos _ hpa] at h
      cases h
      rw [List.map_cons, if_pos hpa, List.find?_cons_of_pos _ (hg a hpa)]
    · rw [List.find?_cons_of_neg _ hpa] at h
      rw [List.map_cons, if_neg hpa, List.find?_cons_of_neg _ hpa]
      exact ih r h

end Helpers

/-- When one run in a distinct-id table is QUEUED under id `rid`, the
conditional claim UPDATE affects exactly that row: the affected count is 1
and the first (unique) row with id `rid` afterwards is the claimed row. -/
theorem claim_hits_unique (runs : List RunRec) (rid : Nat) (r : RunRec)
    (hp : runs.Pairwise (fun a b => a.id ≠ b.id)) (hr : r ∈ runs) (hid : r.id = rid)
    (hq : r.status = "QUEUED") :
    runs.countP (fun x => x.id == rid && x.status == "QUEUED") = 1
    ∧ (runs.map (fun x => if x.id == rid && x.status == "QUEUED"
          then { x with status := "RUNNING", current_iteration := 0 } else x)).find?
        (fun x => x.id == rid)
        = some { r with status := "RUNNING", current_iteration := 0 } := by
  induction runs with
  | nil => cases hr
  | cons a t ih =>
    rcases List.mem_cons.mp hr with heq | hrt
    · subst heq
      have hhit : (r.id == rid && r.status == "QUEUED") = true := by
        simp [hid, hq]
      have hnone : ∀ b ∈ t, (b.id == rid && b.status == "QUEUED") = false := by
        intro b hb
        have hne : r.id ≠ b.id := (List.pairwise_cons.mp hp).1 b hb
        have : ¬ (b.id = rid) := fun hbid => hne (hid.trans hbid.symm)
        simp [this]
      constructor
      · have ht : t.countP (fun x => x.id == rid && x.status == "QUEUED") = 0 := by
          rw [List.countP_eq_zero]
          intro b hb
          simp [hnone b hb]
        simp [List.countP_cons, hhit, ht]
      · rw [List.map_cons, if_pos hhit]
        apply List.find?_cons_of_pos
        simp [hid]
    · have hane : a.id ≠ rid := by
        have hne : a.id ≠ r.id := (List.pairwise_cons.mp hp).1 r hrt
        exact fun h => hne (h.trans hid.symm)
      have hhit : (a.id == rid && a.status == "QUEUED") = false := by
        simp [hane]
      obtain ⟨ihc, ihf⟩ := ih (List.pairwise_cons.mp hp).2 hrt
      constructor
      · simp [List.countP_cons, hhit, ihc]
      · rw [List.map_cons, if_neg (by simp [hhit]), List.find?_cons_of_neg, ihf]
        simp [hane]

/-- Sample stores used by the concrete witness/counterexample theorems. -/
def wsProject : ProjectRec := ⟨1, "demo-project", "/tmp/workspace"⟩

/-- A store holding one QUEUED run with one creation event. -/
def dbQueued : DB :=
  { projects := [wsProject],
    runs := [{ id := 1, project_id := 1, goal := "demo" }],
    events := [⟨1, 1, "RUN_CREATED", "demo"⟩],
    nextRunId := 2, nextEventId := 2 }

/-- The same store with the run already RUNNING. -/
def dbRunning : DB :=
  { dbQueued with runs := [{ id := 1, project_id := 1, goal := "demo", status := "RUNNING" }] }

/-- The same store with the run already COMPLETED. -/
def dbCompleted : DB :=
  { dbQueued with runs := [{ id := 1, project_id := 1, goal := "demo", status := "COMPLETED" }] }

/-- C1.  The claim UPDATE only ever rewrites rows that are QUEUED under the
target id — every row it changes was QUEUED and becomes RUNNING with the
progress counter reset — and when no run with the target id is QUEUED
(already RUNNING/COMPLETED/FAILED, or absent) it affects 0 rows, leaves the
store untouched, `execute_run` returns False for any dispatch behaviour,
and repeating the claim any number of times changes nothing. -/
theorem claim_atomic_and_idempotent_on_nonqueued (db : DB) (rid : Nat) :
    (∀ r' ∈ (claimRun db rid).1.runs,
        r' ∈ db.runs ∨ ∃ r ∈ db.runs, r.id = rid ∧ r.status = "QUEUED"
          ∧ r' = { r with status := "RUNNING", current_iteration := 0 })
    ∧ ((∀ r ∈ db.runs, r.id = rid → r.status ≠ "QUEUED") →
        claimRun db rid = (db, 0)
        ∧ (∀ wfD simD mOk, executeRun wfD simD mOk db rid = ([db], db, false))
        ∧ ∀ n, (fun d => (claimRun d rid).1)^[n] db = db) := by
  constructor
  · intro r' hr'
    simp only [claimRun, List.mem_map] at hr'
    obtain ⟨r, hr, hmap⟩ := hr'
    by_cases hhit : (r.id == rid && r.status == "QUEUED") = true
    · right
      rw [Bool.and_eq_true, beq_iff_eq, beq_iff_eq] at hhit
      refine ⟨r, hr, hhit.1, hhit.2, ?_⟩
      rw [← hmap, if_pos (by simp [hhit.1, hhit.2])]
    · left
      rw [← hmap, if_neg hhit]
      exact hr
  · intro h
    have hnone : ∀ r ∈ db.runs, (r.id == rid && r.status == "QUEUED") = false := by
      intro r hr
      by_cases hi : r.id = rid
      · simp [h r hr hi]
      · simp [hi]
    have hmap : db.runs.map (fun r =>
        if r.id == rid && r.status == "QUEUED"
        then { r with status := "RUNNING", current_iteration := 0 } else r) = db.runs := by
      have h1 := List.map_congr_left (l := db.runs) (f := fun r =>
        if r.id == rid && r.status == "QUEUED"
        then { r with status := "RUNNING", current_iteration := 0 } else r) (g := id)
        (fun r hr => by simp [hnone r hr])
      simpa using h1
    have hcount : db.runs.countP (fun r => r.id == rid && r.status == "QUEUED") = 0 := by
      rw [List.countP_eq_zero]
      intro r hr
      simp [hnone r hr]
    have hclaim : claimRun db rid = (db, 0) := by
      simp only [claimRun]
      rw [hmap, hcount]
    refine ⟨hclaim, ?_, ?_⟩
    · intro wfD simD mOk
      simp [executeRun, hclaim]
    · intro n
      apply Function.iterate_fixed
      simp [hclaim]

/-- Witness for C1: claiming a COMPLETED run affects 0 rows, leaves the
store unchanged, makes `execute_run` return False, and stays a no-op under
iteration. -/
theorem claim_atomic_and_idempotent_on_nonqueued_witness :
    claimRun dbCompleted 1 = (dbCompleted, 0)
    ∧ executeRun (fun d _ => ⟨[d], { id := 1, project_id := 1 }, .ok true⟩)
        simpleDispatch true dbCompleted 1 = ([dbCompleted], dbCompleted, false)
    ∧ (fun d => (claimRun d 1).1)^[5] dbCompleted = dbCompleted := by
  have h := (claim_atomic_and_idempotent_on_nonqueued dbCompleted 1).2 (by decide)
  exact ⟨h.1, h.2.1 _ _ _, h.2.2 5⟩

/-- C2 counterexample: the claim fails on the code at a concrete input.
Pausing a RUNNING run commits the status change in a transaction that
carries no event (the event follows in a second commit), so an observer of
the first committed state sees the status change without its describing
event; the same holds for the QUEUED→RUNNING claim commit, whose
RUN_STARTED event is committed separately. -/
theorem status_event_same_transaction_counterexample :
    ((controlRun dbRunning 1 "pause").toOption.map
        (fun x => traceAtomicB 1 dbRunning x.1) = some false)
    ∧ traceAtomicB 1 dbQueued
        (executeRun (fun d r => ⟨[d], r, .ok true⟩) simpleDispatch true dbQueued 1).1
        = false := ⟨by decide, by decide⟩

/-- C2 amended: only the terminal finalization of `execute_run` commits the
status write together with its describing event in a single transaction;
the QUEUED→RUNNING claim commit carries no event at all (RUN_STARTED is
committed separately), and the control actions commit the status change
first and the `RUN_<ACTION>` event in a second transaction. -/
theorem status_event_same_transaction_amended :
    (∀ (db : DB) (rid : Nat) (pend : RunRec) (success : Bool) (r : RunRec),
      pend.id = rid → db.runs.find? (fun x => x.id == rid) = some r →
        runStatus (finalizeRun db rid pend success) rid
          = some (if success then "COMPLETED" else "FAILED")
        ∧ eventsFor (finalizeRun db rid pend success) rid
          = eventsFor db rid
            ++ [⟨db.nextEventId, rid,
                 if success then "RUN_COMPLETED" else "RUN_FAILED",
                 if success then "Agent execution completed successfully"
                 else "Agent execution failed"⟩])
    ∧ (∀ (db : DB) (rid : Nat), (claimRun db rid).1.events = db.events)
    ∧ (∀ (db : DB) (rid : Nat) (action : String) (r : RunRec),
        (strLower action = "pause" ∨ strLower action = "resume" ∨ strLower action = "stop") →
        db.runs.find? (fun x => x.id == rid) = some r →
        ∃ d1, controlRun db rid action = .ok ([d1, logEvent d1 rid ("RUN_" ++ strUpper (strLower action)) ""], logEvent d1 rid ("RUN_" ++ strUpper (strLower action)) "")
          ∧ d1.events = db.events) := by
  refine ⟨?_, ?_, ?_⟩
  · intro db rid pend success r hpid hfind
    constructor
    · have hfind2 := find?_map_if db.runs (fun x => x.id == rid)
        (fun _ => { pend with status := if success then "COMPLETED" else "FAILED" })
        (fun x _ => by simp [hpid]) r hfind
      simp only [finalizeRun]
      rw [runStatus_logEvent]
      simp only [runStatus, findRun]
      rw [hfind2]
      rfl
    · simp only [finalizeRun]
      simp [eventsFor, logEvent, List.filter_append]
  · intro db rid
    rfl
  · intro db rid action r hval hfind
    refine ⟨{ db with runs := db.runs.map (fun x =>
        if x.id == rid then { x with status :=
          (if strLower action == "pause" then "PAUSED"
           else if strLower action == "resume" then "RUNNING" else "STOPPED") } else x) }, ?_, rfl⟩
    simp only [controlRun]
    rw [if_neg (not_not_intro hval), hfind]

/-- Pending state of the demo run object at finalization time. -/
def pendDemo : RunRec :=
  { id := 1, project_id := 1, goal := "demo", status := "RUNNING", current_iteration := 4 }

/-- Witness for the amended C2 at concrete inputs. -/
theorem status_event_same_transaction_amended_witness :
    runStatus (finalizeRun dbRunning 1 pendDemo true) 1
      = some (if true then "COMPLETED" else "FAILED")
    ∧ (claimRun dbQueued 1).1.events = dbQueued.events
    ∧ ∃ d1, controlRun dbRunning 1 "pause"
        = .ok ([d1, logEvent d1 1 ("RUN_" ++ strUpper (strLower "pause")) ""],
               logEvent d1 1 ("RUN_" ++ strUpper (strLower "pause")) "")
        ∧ d1.events = dbRunning.events :=
  ⟨(status_event_same_transaction_amended.1 dbRunning 1 pendDemo true
      { id := 1, project_id := 1, goal := "demo", status := "RUNNING" } rfl (by decide)).1,
   status_event_same_transaction_amended.2.1 dbQueued 1,
   status_event_same_transaction_amended.2.2 dbRunning 1 "pause"
      { id := 1, project_id := 1, goal := "demo", status := "RUNNING" } (by decide) (by decide)⟩

/-- C9 counterexample: the control endpoint has no state-machine guard —
pausing a COMPLETED (terminal) run moves it to PAUSED, so a terminal run is
moved out of its terminal state and PAUSED is reached from a state other
than RUNNING. -/
theorem terminal_status_protected_counterexample :
    (controlRun dbCompleted 1 "pause").toOption.map (fun x => runStatus x.2 1)
      = some (some "PAUSED") := by decide

/-- C9 amended: the pause/resume/stop endpoint sets the mapped status on
any existing run unconditionally, whatever its current status (QUEUED,
RUNNING or terminal) — no transition is ever rejected for an existing run
and a valid action. -/
theorem control_sets_status_unconditionally :
    ∀ (db : DB) (rid : Nat) (action : String) (r : RunRec) (st : String),
      db.runs.find? (fun x => x.id == rid) = some r →
      ((strLower action = "pause" ∧ st = "PAUSED")
        ∨ (strLower action = "resume" ∧ st = "RUNNING")
        ∨ (strLower action = "stop" ∧ st = "STOPPED")) →
      ∃ tr d2, controlRun db rid action = .ok (tr, d2) ∧ runStatus d2 rid = some st := by
  intro db rid action r st hfind hact
  have hres : ∀ st',
      (db.runs.map (fun x => if x.id == rid then { x with status := st' } else x)).find?
        (fun x => x.id == rid) = some { r with status := st' } := fun st' =>
    find?_map_if db.runs (fun x => x.id == rid)
      (fun x => { x with status := st' }) (fun x hx => hx) r hfind
  rcases hact with ⟨ha, hst⟩ | ⟨ha, hst⟩ | ⟨ha, hst⟩ <;> subst hst <;>
    · simp only [controlRun, ha, hfind]
      simp only [String.reduceEq, or_false, false_or, or_true, true_or, not_true_eq_false,
        not_false_eq_true, if_true, if_false, reduceIte, String.reduceBEq]
      refine ⟨_, _, rfl, ?_⟩
      rw [runStatus_logEvent]
      simp only [runStatus, findRun]
      rw [hres]
      rfl

/-- Witness for the amended C9: stopping the COMPLETED demo run yields
status STOPPED. -/
theorem control_sets_status_unconditionally_witness :
    ∃ tr d2, controlRun dbCompleted 1 "stop" = .ok (tr, d2)
      ∧ runStatus d2 1 = some "STOPPED" :=
  control_sets_status_unconditionally dbCompleted 1 "stop"
    { id := 1, project_id := 1, goal := "demo", status := "COMPLETED" } "STOPPED"
    (by decide) (by decide)

/-- C3.  Whatever the dispatched execution does — including raising — and
whatever the best-effort failure write does, `execute_run` returns a
boolean (false on a raise); when the dispatched execution raises and the
failure write succeeds on an existing run, the final committed state has
the run FAILED with a trailing `RUN_FAILED` / `Error: <msg>` event; when
the failure write itself fails, the last state committed during dispatch
stands and the function still returns false. -/
theorem execute_run_catches_all :
    (∀ (db : DB) (rid : Nat) (mOk : Bool) (msg : String)
        (f g : DB → RunRec → List DB × RunRec),
        (executeRun (fun d r => ⟨(f d r).1, (f d r).2, .error msg⟩)
          (fun d r => ⟨(g d r).1, (g d r).2, .error msg⟩) mOk db rid).2.2 = false)
    ∧ (∀ (db2 : DB) (rid : Nat) (dtrace : List DB) (pend : RunRec) (msg : String) (r : RunRec),
        pend.id = rid →
        (dtrace.getLastD db2).runs.find? (fun x => x.id == rid) = some r →
        runStatus (afterDispatch db2 rid ⟨dtrace, pend, .error msg⟩ true).2.1 rid = some "FAILED"
        ∧ eventsFor (afterDispatch db2 rid ⟨dtrace, pend, .error msg⟩ true).2.1 rid
            = eventsFor (dtrace.getLastD db2) rid
              ++ [⟨(dtrace.getLastD db2).nextEventId, rid, "RUN_FAILED", "Error: " ++ msg⟩]
        ∧ (afterDispatch db2 rid ⟨dtrace, pend, .error msg⟩ true).2.2 = false)
    ∧ (∀ (db2 : DB) (rid : Nat) (dtrace : List DB) (pend : RunRec) (msg : String),
        (afterDispatch db2 rid ⟨dtrace, pend, .error msg⟩ false).2.1 = dtrace.getLastD db2
        ∧ (afterDispatch db2 rid ⟨dtrace, pend, .error msg⟩ false).2.2 = false) := by
  refine ⟨?_, ?_, ?_⟩
  · intro db rid mOk msg f g
    simp only [executeRun]
    rcases hcl : claimRun db rid with ⟨db1, updated⟩
    by_cases hu : updated ≠ 1
    · simp [hu]
    · simp only [hu, if_false, reduceIte]
      rcases hfr : findRun db1 rid with _ | run
      · simp
      · simp only []
        rcases hrt : run.run_type == "workflow" with _ | _ <;>
          · simp only [hrt, afterDispatch, Bool.false_eq_true, if_false, if_true, reduceIte]
            rcases mOk with _ | _ <;> simp
  · intro db2 rid dtrace pend msg r hpid hfind
    have hfind2 := find?_map_if (dtrace.getLastD db2).runs (fun x => x.id == rid)
      (fun _ => { pend with status := "FAILED" }) (fun x _ => by simp [hpid]) r hfind
    refine ⟨?_, ?_, by simp [afterDispatch]⟩
    · simp only [afterDispatch, markRunFailed, hfind, if_true, reduceIte]
      rw [runStatus_logEvent]
      simp only [runStatus, findRun]
      rw [hfind2]
      rfl
    · simp only [afterDispatch, markRunFailed, hfind, if_true, reduceIte]
      simp [eventsFor, logEvent, List.filter_append]
  · intro db2 rid dtrace pend msg
    exact ⟨rfl, rfl⟩

/-- Witness for C3 at concrete inputs: both dispatchers raise "boom"; the
run is marked FAILED and `execute_run` reports failure. -/
theorem execute_run_catches_all_witness :
    (executeRun (fun d r => ⟨[d], r, .error "boom"⟩)
        (fun d r => ⟨[d], r, .error "boom"⟩) true dbQueued 1).2.2 = false
    ∧ runStatus (afterDispatch dbQueued 1 ⟨[], pendDemo, .error "boom"⟩ true).2.1 1
        = some "FAILED"
    ∧ (afterDispatch dbQueued 1 ⟨[], pendDemo, .error "boom"⟩ false).2.2 = false :=
  ⟨execute_run_catches_all.1 dbQueued 1 true "boom"
      (fun d r => ([d], r)) (fun d r => ([d], r)),
   (execute_run_catches_all.2.1 dbQueued 1 [] pendDemo "boom"
      { id := 1, project_id := 1, goal := "demo" } rfl (by decide)).1,
   (execute_run_catches_all.2.2 dbQueued 1 [] pendDemo "boom").2⟩

/-- Sorting a list whose ids already strictly increase is the identity. -/
theorem sortById_eq_of_sorted :
    ∀ l : List EventRec, l.Pairwise (fun a b => a.id < b.id) → sortById l = l := by
  intro l hl
  induction l with
  | nil => rfl
  | cons x xs ih =>
    have hx := (List.pairwise_cons.mp hl).1
    rw [sortById, ih (List.pairwise_cons.mp hl).2]
    cases xs with
    | nil => rfl
    | cons y t =>
      rw [insertById, if_pos (Nat.le_of_lt (hx y (List.mem_cons_self y t)))]

/-- On an id-sorted list, the events above a cursor form a suffix. -/
theorem filter_cursor_suffix (k : Nat) :
    ∀ l : List EventRec, l.Pairwise (fun a b => a.id < b.id) →
      l.filter (fun e => k < e.id) <:+ l := by
  intro l hl
  induction l with
  | nil => exact List.suffix_rfl
  | cons x xs ih =>
    by_cases hk : k < x.id
    · have hall : xs.filter (fun e => k < e.id) = xs := by
        rw [List.filter_eq_self]
        intro a ha
        have := (List.pairwise_cons.mp hl).1 a ha
        simp only [decide_eq_true_eq]
        omega
      rw [List.filter_cons_of_pos (by simpa using hk), hall]
    · rw [List.filter_cons_of_neg (by simpa using hk)]
      exact (ih (List.pairwise_cons.mp hl).2).trans (List.suffix_cons x xs)

/-- C4.  With strictly increasing positive event ids (the autoincrement
invariant), listing a run's events with a cursor returns exactly the events
with id above the cursor: cursor 0 (the default) returns everything, a
cursor `k` returns exactly the id-above-`k` filtration of the full listing,
the result's ids strictly increase (no duplicates), and it is a suffix of
the full listing (no gaps). -/
theorem events_after_cursor (db : DB) (rid : Nat) (k : Nat)
    (hs : db.events.Pairwise (fun a b => a.id < b.id))
    (hpos : ∀ e ∈ db.events, 1 ≤ e.id) :
    getRunEvents db rid none = getRunEvents db rid (some 0)
    ∧ getRunEvents db rid (some k)
        = (getRunEvents db rid (some 0)).filter (fun e => k < e.id)
    ∧ (getRunEvents db rid (some k)).Pairwise (fun a b => a.id < b.id)
    ∧ getRunEvents db rid (some k) <:+ getRunEvents db rid (some 0) := by
  have hq : (db.events.filter (fun e => e.run_id == rid)).Pairwise
      (fun a b => a.id < b.id) :=
    List.Pairwise.sublist (List.filter_sublist db.events) hs
  have hq0 : getRunEvents db rid (some 0)
      = db.events.filter (fun e => e.run_id == rid) := by
    simp only [getRunEvents]
    rw [if_neg (by omega)]
    exact sortById_eq_of_sorted _ hq
  have hnone : getRunEvents db rid none
      = db.events.filter (fun e => e.run_id == rid) := by
    simp only [getRunEvents]
    exact sortById_eq_of_sorted _ hq
  have hqk : getRunEvents db rid (some k)
      = (db.events.filter (fun e => e.run_id == rid)).filter (fun e => k < e.id) := by
    by_cases hk : 0 < k
    · simp only [getRunEvents]
      rw [if_pos hk]
      exact sortById_eq_of_sorted _
        (List.Pairwise.sublist (List.filter_sublist _) hq)
    · have hk0 : k = 0 := by omega
      subst hk0
      rw [hq0.symm.trans rfl]
      rw [hq0]
      symm
      rw [List.filter_eq_self]
      intro a ha
      have ha' : a ∈ db.events := (List.filter_sublist db.events).subset ha
      have := hpos a ha'
      simp only [decide_eq_true_eq]
      omega
  refine ⟨hnone.trans hq0.symm, ?_, ?_, ?_⟩
  · rw [hqk, hq0]
  · rw [hqk]
    exact List.Pairwise.sublist (List.filter_sublist _) hq
  · rw [hqk, hq0]
    exact filter_cursor_suffix k _ hq

/-- Witness for C4: the store after a full simple-run execution, cursor 2. -/
theorem events_after_cursor_witness :
    getRunEvents dbQueued 1 none = getRunEvents dbQueued 1 (some 0)
    ∧ getRunEvents dbQueued 1 (some 2)
        = (getRunEvents dbQueued 1 (some 0)).filter (fun e => 2 < e.id)
    ∧ (getRunEvents dbQueued 1 (some 2)).Pairwise (fun a b => a.id < b.id)
    ∧ getRunEvents dbQueued 1 (some 2) <:+ getRunEvents dbQueued 1 (some 0) :=
  events_after_cursor dbQueued 1 2 (by decide) (by decide)

/-- One phase of the simple run: the run object gets the new iteration
count, the phase event is appended, and nothing else changes observably. -/
theorem simplePhase_post (d : DB) (cur : RunRec) (iter : Nat) (ty p : String) (rid : Nat)
    (hrid : cur.id = rid)
    (hfind : d.runs.find? (fun x => x.id == rid) = some cur) :
    (simplePhase d cur iter ty p).2 = { cur with current_iteration := iter }
    ∧ (simplePhase d cur iter ty p).1.runs.find? (fun x => x.id == rid)
        = some { cur with current_iteration := iter }
    ∧ eventsFor (simplePhase d cur iter ty p).1 rid
        = eventsFor d rid ++ [⟨d.nextEventId, rid, ty, p⟩]
    ∧ (simplePhase d cur iter ty p).1.nextEventId = d.nextEventId + 1 := by
  refine ⟨rfl, ?_, ?_, rfl⟩
  · have h := find?_map_if d.runs (fun x => x.id == rid)
      (fun _ => { cur with current_iteration := iter })
      (fun x _ => by simp [hrid]) cur hfind
    simp only [simplePhase, hrid, logEvent]
    simpa [hrid] using h
  · simp only [simplePhase, hrid]
    rw [eventsFor_logEvent]
    rfl

/-- Dispatching the simple (non-workflow) execution on a claimed run and
finalizing yields: success, status COMPLETED, progress counter 4, and
exactly the three phase events plus RUN_COMPLETED appended in order. -/
theorem simple_dispatch_post (db2 : DB) (run : RunRec) (rid : Nat) (mOk : Bool)
    (hrid : run.id = rid)
    (hfind : db2.runs.find? (fun x => x.id == rid) = some run) :
    (afterDispatch db2 rid (simpleDispatch db2 run) mOk).2.2 = true
    ∧ runStatus (afterDispatch db2 rid (simpleDispatch db2 run) mOk).2.1 rid
        = some "COMPLETED"
    ∧ (findRun (afterDispatch db2 rid (simpleDispatch db2 run) mOk).2.1 rid).map
        (fun x => x.current_iteration) = some 4
    ∧ (eventsFor (afterDispatch db2 rid (simpleDispatch db2 run) mOk).2.1 rid).map
        (fun e => e.type)
        = (eventsFor db2 rid).map (fun e => e.type)
          ++ ["AGENT_THINKING", "PLAN_GENERATED", "EXECUTING", "RUN_COMPLETED"] := by
  rcases hA : simplePhase db2 run 1 "AGENT_THINKING" ("Analyzing goal: " ++ run.goal)
    with ⟨dbA, r1⟩
  have postA := simplePhase_post db2 run 1 "AGENT_THINKING"
    ("Analyzing goal: " ++ run.goal) rid hrid hfind
  rw [hA] at postA
  dsimp only at postA
  obtain ⟨hr1, hfindA, hevA, hnextA⟩ := postA
  rw [← hr1] at hfindA
  have hr1id : r1.id = rid := by rw [hr1]; exact hrid
  rcases hB : simplePhase dbA r1 2 "PLAN_GENERATED"
      ("Plan for \x27" ++ run.goal ++ "\x27:\n1. Understand requirements\n2. Design solution\n3. Implement\n4. Test")
    with ⟨dbB, r2⟩
  have postB := simplePhase_post dbA r1 2 "PLAN_GENERATED"
    ("Plan for \x27" ++ run.goal ++ "\x27:\n1. Understand requirements\n2. Design solution\n3. Implement\n4. Test")
    rid hr1id hfindA
  rw [hB] at postB
  dsimp only at postB
  obtain ⟨hr2, hfindB, hevB, hnextB⟩ := postB
  rw [← hr2] at hfindB
  have hr2id : r2.id = rid := by rw [hr2]; exact hr1id
  rcases hC : simplePhase dbB r2 3 "EXECUTING" "Simulating work execution..."
    with ⟨dbC, r3⟩
  have postC := simplePhase_post dbB r2 3 "EXECUTING" "Simulating work execution..."
    rid hr2id hfindB
  rw [hC] at postC
  dsimp only at postC
  obtain ⟨hr3, hfindC, hevC, hnextC⟩ := postC
  rw [← hr3] at hfindC
  have hr3id : r3.id = rid := by rw [hr3]; exact hr2id
  have hsd : simpleDispatch db2 run
      = ⟨[dbA, dbB, dbC], { r3 with current_iteration := 4 }, .ok true⟩ := by
    simp only [simpleDispatch]
    rw [hA]
    dsimp only
    rw [hB]
    dsimp only
    rw [hC]
  have hfin := find?_map_if dbC.runs (fun x => x.id == rid)
    (fun _ => { r3 with current_iteration := 4, status := "COMPLETED" })
    (fun x _ => by simp [hr3id]) r3 hfindC
  dsimp only at hfin
  have hgoal : afterDispatch db2 rid (simpleDispatch db2 run) mOk
      = ([db2, dbA, dbB, dbC, finalizeRun dbC rid { r3 with current_iteration := 4 } true],
         finalizeRun dbC rid { r3 with current_iteration := 4 } true, true) := by
    rw [hsd]
    rfl
  rw [hgoal]
  refine ⟨rfl, ?_, ?_, ?_⟩
  · simp only [finalizeRun, logEvent, runStatus, findRun, if_true, reduceIte]
    rw [hfin]
    rfl
  · simp only [finalizeRun, logEvent, findRun, if_true, reduceIte]
    rw [hfin]
    rfl
  · simp only [finalizeRun, logEvent, eventsFor, if_true, reduceIte] at hevA hevB hevC ⊢
    rw [List.filter_append, hevC, hevB, hevA]
    simp

/-- C5.  On a store with distinct run ids, executing a QUEUED run of
non-workflow type succeeds: `execute_run` returns True, the run ends
COMPLETED with `current_iteration = 4`, and its event log gains exactly
RUN_STARTED, AGENT_THINKING, PLAN_GENERATED, EXECUTING, RUN_COMPLETED, in
that order. -/
theorem simple_run_end_to_end (db : DB) (rid : Nat) (r : RunRec)
    (hp : db.runs.Pairwise (fun a b => a.id ≠ b.id))
    (hr : r ∈ db.runs) (hid : r.id = rid) (hq : r.status = "QUEUED")
    (hwt : r.run_type ≠ "workflow") (wfD : Dispatch) (mOk : Bool) :
    (executeRun wfD simpleDispatch mOk db rid).2.2 = true
    ∧ runStatus (executeRun wfD simpleDispatch mOk db rid).2.1 rid = some "COMPLETED"
    ∧ (findRun (executeRun wfD simpleDispatch mOk db rid).2.1 rid).map
        (fun x => x.current_iteration) = some 4
    ∧ (eventsFor (executeRun wfD simpleDispatch mOk db rid).2.1 rid).map (fun e => e.type)
        = (eventsFor db rid).map (fun e => e.type)
          ++ ["RUN_STARTED", "AGENT_THINKING", "PLAN_GENERATED", "EXECUTING", "RUN_COMPLETED"] := by
  obtain ⟨hcount, hfind1⟩ := claim_hits_unique db.runs rid r hp hr hid hq
  have hcl : claimRun db rid
      = ({ db with runs := db.runs.map (fun x =>
            if x.id == rid && x.status == "QUEUED"
            then { x with status := "RUNNING", current_iteration := 0 } else x) }, 1) := by
    simp only [claimRun]
    rw [hcount]
  have hwtb : (({ r with status := "RUNNING", current_iteration := 0 } : RunRec).run_type
      == "workflow") = false := by
    simp [hwt]
  have hexec : executeRun wfD simpleDispatch mOk db rid
      = ({ db with runs := db.runs.map (fun x =>
            if x.id == rid && x.status == "QUEUED"
            then { x with status := "RUNNING", current_iteration := 0 } else x) }
          :: (afterDispatch
                (logEvent { db with runs := db.runs.map (fun x =>
                    if x.id == rid && x.status == "QUEUED"
                    then { x with status := "RUNNING", current_iteration := 0 } else x) }
                  rid "RUN_STARTED" "Agent execution started")
                rid
                (simpleDispatch
                  (logEvent { db with runs := db.runs.map (fun x =>
                      if x.id == rid && x.status == "QUEUED"
                      then { x with status := "RUNNING", current_iteration := 0 } else x) }
                    rid "RUN_STARTED" "Agent execution started")
                  { r with status := "RUNNING", current_iteration := 0 })
                mOk).1,
         (afterDispatch
                (logEvent { db with runs := db.runs.map (fun x =>
                    if x.id == rid && x.status == "QUEUED"
                    then { x with status := "RUNNING", current_iteration := 0 } else x) }
                  rid "RUN_STARTED" "Agent execution started")
                rid
                (simpleDispatch
                  (logEvent { db with runs := db.runs.map (fun x =>
                      if x.id == rid && x.status == "QUEUED"
                      then { x with status := "RUNNING", current_iteration := 0 } else x) }
                    rid "RUN_STARTED" "Agent execution started")
                  { r with status := "RUNNING", current_iteration := 0 })
                mOk).2.1,
         (afterDispatch
                (logEvent { db with runs := db.runs.map (fun x =>
                    if x.id == rid && x.status == "QUEUED"
                    then { x with status := "RUNNING", current_iteration := 0 } else x) }
                  rid "RUN_STARTED" "Agent execution started")
                rid
                (simpleDispatch
                  (logEvent { db with runs := db.runs.map (fun x =>
                      if x.id == rid && x.status == "QUEUED"
                      then { x with status := "RUNNING", current_iteration := 0 } else x) }
                    rid "RUN_STARTED" "Agent execution started")
                  { r with status := "RUNNING", current_iteration := 0 })
                mOk).2.2) := by
    simp only [executeRun, hcl, findRun]
    rw [hfind1]
    simp only [ne_eq, not_true_eq_false, if_false, reduceIte, hwtb, Bool.false_eq_true]
  rw [hexec]
  have hfind2 : (logEvent { db with runs := db.runs.map (fun x =>
      if x.id == rid && x.status == "QUEUED"
      then { x with status := "RUNNING", current_iteration := 0 } else x) }
        rid "RUN_STARTED" "Agent execution started").runs.find? (fun x => x.id == rid)
      = some { r with status := "RUNNING", current_iteration := 0 } := hfind1
  have hev2 : eventsFor (logEvent { db with runs := db.runs.map (fun x =>
      if x.id == rid && x.status == "QUEUED"
      then { x with status := "RUNNING", current_iteration := 0 } else x) }
        rid "RUN_STARTED" "Agent execution started") rid
      = eventsFor db rid ++ [⟨db.nextEventId, rid, "RUN_STARTED", "Agent execution started"⟩] := by
    rw [eventsFor_logEvent]
    rfl
  have post := simple_dispatch_post _ _ rid mOk
    (show ({ r with status := "RUNNING", current_iteration := 0 } : RunRec).id = rid from hid)
    hfind2
  refine ⟨post.1, post.2.1, post.2.2.1, ?_⟩
  dsimp only
  rw [post.2.2.2, hev2]
  simp

/-- Witness for C5 on the concrete queued store. -/
theorem simple_run_end_to_end_witness :
    (executeRun (fun d r => ⟨[d], r, .ok true⟩) simpleDispatch true dbQueued 1).2.2 = true
    ∧ runStatus (executeRun (fun d r => ⟨[d], r, .ok true⟩) simpleDispatch true dbQueued 1).2.1 1
        = some "COMPLETED"
    ∧ (findRun (executeRun (fun d r => ⟨[d], r, .ok true⟩) simpleDispatch true dbQueued 1).2.1 1).map
        (fun x => x.current_iteration) = some 4
    ∧ (eventsFor (executeRun (fun d r => ⟨[d], r, .ok true⟩) simpleDispatch true dbQueued 1).2.1 1).map
        (fun e => e.type)
        = (eventsFor dbQueued 1).map (fun e => e.type)
          ++ ["RUN_STARTED", "AGENT_THINKING", "PLAN_GENERATED", "EXECUTING", "RUN_COMPLETED"] :=
  simple_run_end_to_end dbQueued 1 { id := 1, project_id := 1, goal := "demo" }
    (by decide) (by decide) rfl rfl (by decide) (fun d r => ⟨[d], r, .ok true⟩) true

/-- The notifications one successful step contributes: its STEP_STARTED,
the executor's own notifications, and its STEP_COMPLETED carrying the
artifact path. -/
def stepBlock (stepExec : Nat → WfStep → List EvTuple × Except String StepData)
    (i : Nat) (s : WfStep) : List EvTuple :=
  let (subev, res) := stepExec i s
  ("STEP_STARTED", "Step " ++ toString i ++ ": " ++ s.name ++ " - " ++ s.description, none)
    :: subev ++ (match res with
      | .ok d => [("STEP_COMPLETED", "Step " ++ toString i ++ " completed: " ++ s.name,
                   d.artifact_path)]
      | .error _ => [])

/-- Concatenated notification blocks of a step list starting at index `i`. -/
def blocks (stepExec : Nat → WfStep → List EvTuple × Except String StepData) :
    Nat → List WfStep → List EvTuple
  | _, [] => []
  | i, s :: rest => stepBlock stepExec i s ++ blocks stepExec (i + 1) rest

/-- Unfolding one successful loop iteration. -/
theorem execSteps_cons_ok (stepExec : Nat → WfStep → List EvTuple × Except String StepData)
    (i : Nat) (s : WfStep) (rest : List WfStep) (acc : WfResults)
    (ev : List EvTuple) (d : StepData) (hsd : stepExec i s = (ev, .ok d)) :
    ∃ acc2 : WfResults, execSteps stepExec i (s :: rest) acc
      = (stepBlock stepExec i s ++ (execSteps stepExec (i + 1) rest acc2).1,
         (execSteps stepExec (i + 1) rest acc2).2) := by
  refine ⟨(if s.save_artifact && d.artifact_path.isSome then
      { acc with steps := acc.steps ++ [(i, s.name, s.step_type, "completed")],
                 artifacts := acc.artifacts
                   ++ [(s.name, d.artifact_path.getD "", d.artifact_type.getD "file")] }
    else { acc with steps := acc.steps ++ [(i, s.name, s.step_type, "completed")] }), ?_⟩
  simp only [execSteps, hsd, stepBlock]
  rcases hE : execSteps stepExec (i + 1) rest
      (if s.save_artifact && d.artifact_path.isSome then
        { acc with steps := acc.steps ++ [(i, s.name, s.step_type, "completed")],
                   artifacts := acc.artifacts
                     ++ [(s.name, d.artifact_path.getD "", d.artifact_type.getD "file")] }
      else { acc with steps := acc.steps ++ [(i, s.name, s.step_type, "completed")] })
    with ⟨evs, out⟩
  by_cases hart : (s.save_artifact && d.artifact_path.isSome) = true
  · simp only [hart, if_true, reduceIte] at hE ⊢
    simp
  · simp only [Bool.not_eq_true] at hart
    simp only [hart, Bool.false_eq_true, if_false, reduceIte] at hE ⊢
    simp

/-- When every step from index `i` on succeeds, the loop emits exactly the
step blocks in order and returns ok. -/
theorem execSteps_all_ok (stepExec : Nat → WfStep → List EvTuple × Except String StepData) :
    ∀ (steps : List WfStep) (i : Nat) (acc : WfResults),
      (∀ j (hj : j < steps.length), ∃ ev d, stepExec (i + j) (steps.get ⟨j, hj⟩) = (ev, .ok d)) →
      ∃ res, execSteps stepExec i steps acc = (blocks stepExec i steps, .ok res) := by
  intro steps
  induction steps with
  | nil => exact fun i acc _ => ⟨acc, rfl⟩
  | cons s rest ih =>
    intro i acc h
    obtain ⟨ev, d, hsd0⟩ := h 0 (by simp)
    have hsd : stepExec i s = (ev, .ok d) := hsd0
    have hrest : ∀ j (hj : j < rest.length),
        ∃ ev' d', stepExec (i + 1 + j) (rest.get ⟨j, hj⟩) = (ev', .ok d') := by
      intro j hj
      obtain ⟨ev', d', h'⟩ := h (j + 1) (by simpa using Nat.succ_lt_succ hj)
      refine ⟨ev', d', ?_⟩
      rw [← h']
      congr 1
      omega
    obtain ⟨acc2, hcons⟩ := execSteps_cons_ok stepExec i s rest acc ev d hsd
    obtain ⟨res, hres⟩ := ih (i + 1) acc2 hrest
    refine ⟨res, ?_⟩
    rw [hcons, hres]
    simp [blocks]

/-- When the steps before index `i + pre.length` succeed and the next step
raises, the loop emits the successful blocks, the failing step's
STEP_STARTED and its notifications, and propagates the error — nothing of
the later steps appears. -/
theorem execSteps_fail (stepExec : Nat → WfStep → List EvTuple × Except String StepData) :
    ∀ (pre : List WfStep) (i : Nat) (acc : WfResults) (s : WfStep) (post : List WfStep)
      (subev : List EvTuple) (msg : String),
      (∀ j (hj : j < pre.length), ∃ ev d, stepExec (i + j) (pre.get ⟨j, hj⟩) = (ev, .ok d)) →
      stepExec (i + pre.length) s = (subev, .error msg) →
      execSteps stepExec i (pre ++ s :: post) acc
        = (blocks stepExec i pre
            ++ ("STEP_STARTED",
                "Step " ++ toString (i + pre.length) ++ ": " ++ s.name ++ " - " ++ s.description,
                none) :: subev,
           .error msg) := by
  intro pre
  induction pre with
  | nil =>
    intro i acc s post subev msg _ hfail
    have hfail' : stepExec i s = (subev, .error msg) := hfail
    simp only [List.nil_append, execSteps, hfail', blocks]
    simp
  | cons p pre' ih =>
    intro i acc s post subev msg h hfail
    obtain ⟨ev, d, hsd0⟩ := h 0 (by simp)
    have hsd : stepExec i p = (ev, .ok d) := hsd0
    have hrest : ∀ j (hj : j < pre'.length),
        ∃ ev' d', stepExec (i + 1 + j) (pre'.get ⟨j, hj⟩) = (ev', .ok d') := by
      intro j hj
      obtain ⟨ev', d', h'⟩ := h (j + 1) (by simpa using Nat.succ_lt_succ hj)
      refine ⟨ev', d', ?_⟩
      rw [← h']
      congr 1
      omega
    have hfail' : stepExec (i + 1 + pre'.length) s = (subev, .error msg) := by
      have hlen : i + 1 + pre'.length = i + (p :: pre').length := by
        simp only [List.length_cons]
        omega
      rw [hlen]
      exact hfail
    obtain ⟨acc2, hcons⟩ := execSteps_cons_ok stepExec i p (pre' ++ s :: post) acc ev d hsd
    rw [List.cons_append, hcons, ih (i + 1) acc2 s post subev msg hrest hfail']
    have hlen : i + 1 + pre'.length = i + (pre'.length + 1) := by omega
    simp [blocks, hlen]

/-- C6.  The orchestrator's contract: when every step succeeds, the
notifications are exactly WORKFLOW_STARTED, then for each step in order its
STEP_STARTED, its executor notifications and its STEP_COMPLETED (carrying
the artifact path), then WORKFLOW_COMPLETED, and the results are returned;
when the step at position `pre.length` raises after the steps of `pre`
succeeded, the notifications stop at that step's block followed by
WORKFLOW_FAILED with the error description, nothing of any later step is
emitted, and the error is re-raised to the caller. -/
theorem workflow_fail_fast_and_ordered
    (stepExec : Nat → WfStep → List EvTuple × Except String StepData) (wf : Workflow) :
    ((∀ j (hj : j < wf.steps.length),
        ∃ ev d, stepExec (1 + j) (wf.steps.get ⟨j, hj⟩) = (ev, .ok d)) →
      ∃ res, executeWorkflow stepExec wf
        = (("WORKFLOW_STARTED", "Starting " ++ wf.name ++ " v" ++ wf.version, none)
            :: blocks stepExec 1 wf.steps
            ++ [("WORKFLOW_COMPLETED",
                 "Workflow completed successfully with "
                   ++ toString res.artifacts.length ++ " artifacts", none)],
           .ok res))
    ∧ (∀ (pre : List WfStep) (s : WfStep) (post : List WfStep)
          (subev : List EvTuple) (msg : String),
        wf.steps = pre ++ s :: post →
        (∀ j (hj : j < pre.length),
          ∃ ev d, stepExec (1 + j) (pre.get ⟨j, hj⟩) = (ev, .ok d)) →
        stepExec (1 + pre.length) s = (subev, .error msg) →
        executeWorkflow stepExec wf
          = (("WORKFLOW_STARTED", "Starting " ++ wf.name ++ " v" ++ wf.version, none)
              :: blocks stepExec 1 pre
              ++ ("STEP_STARTED",
                  "Step " ++ toString (1 + pre.length) ++ ": " ++ s.name ++ " - " ++ s.description,
                  none) :: subev
              ++ [("WORKFLOW_FAILED", "Workflow execution failed: " ++ msg, none)],
             .error msg)) := by
  constructor
  · intro h
    obtain ⟨res, hres⟩ := execSteps_all_ok stepExec wf.steps 1
      { workflow_name := wf.name, workflow_version := wf.version } h
    refine ⟨res, ?_⟩
    simp only [executeWorkflow, hres]
  · intro pre s post subev msg hsteps hpre hfail
    have hexec := execSteps_fail stepExec pre 1
      { workflow_name := wf.name, workflow_version := wf.version } s post subev msg hpre hfail
    simp only [executeWorkflow, hsteps, hexec]
    simp

/-- A three-step concrete workflow for the C6 witness. -/
def wfDemo : Workflow :=
  { name := "w", version := "1", steps := [plannerStep, plannerStep, plannerStep] }

/-- A concrete step executor whose second step raises. -/
def stepExecDemo (i : Nat) (_ : WfStep) : List EvTuple × Except String StepData :=
  ([("LLM_GENERATING", "gen", none)],
   if i == 2 then .error "boom" else .ok { artifact_path := some "a" })

/-- Witness for C6: with the second step raising, execution stops there and
the failure is re-raised. -/
theorem workflow_fail_fast_and_ordered_witness :
    executeWorkflow stepExecDemo wfDemo
      = (("WORKFLOW_STARTED", "Starting " ++ wfDemo.name ++ " v" ++ wfDemo.version, none)
          :: blocks stepExecDemo 1 [plannerStep]
          ++ ("STEP_STARTED",
              "Step " ++ toString (1 + [plannerStep].length) ++ ": " ++ plannerStep.name
                ++ " - " ++ plannerStep.description,
              none) :: [("LLM_GENERATING", "gen", none)]
          ++ [("WORKFLOW_FAILED", "Workflow execution failed: " ++ "boom", none)],
         .error "boom") :=
  (workflow_fail_fast_and_ordered stepExecDemo wfDemo).2
    [plannerStep] plannerStep [plannerStep] [("LLM_GENERATING", "gen", none)] "boom"
    rfl
    (by
      intro j hj
      have hj1 : j = 0 := by simp at hj; omega
      subst hj1
      exact ⟨[("LLM_GENERATING", "gen", none)], { artifact_path := some "a" }, rfl⟩)
    rfl

/-- C7.  A generate-text step with model and prompt set calls the provider
with exactly that prompt and model; the step result's generated content is
the provider's text (with its length recorded); with no output file nothing
is written, and with a declared output file the text is written to that
file under the workspace and the file is recorded as the artifact path. -/
theorem llm_step_generates (gen : String → String → Except String String)
    (workspace : String) (s : WfStep) (m p text : String)
    (hm : s.model = some m) (hm0 : m ≠ "")
    (hp : s.prompt = some p) (hp0 : p ≠ "")
    (hgen : gen p m = .ok text) :
    (s.output_file = none → executeLlmStep gen workspace s
        = .ok ({ generated_content := some text, model := some m,
                 content_length := some text.length }, []))
    ∧ (∀ f, f ≠ "" → s.output_file = some f →
        executeLlmStep gen workspace s
          = .ok ({ generated_content := some text, model := some m,
                   content_length := some text.length,
                   artifact_path := some (workspace ++ "/" ++ f),
                   artifact_type := some "generated_file" },
                 [(workspace ++ "/" ++ f, text)])) := by
  constructor
  · intro hf
    simp [executeLlmStep, hm, hp, hgen, hm0, hp0, hf]
  · intro f hf0 hf
    simp [executeLlmStep, hm, hp, hgen, hm0, hp0, hf, hf0]

/-- Witness for C7 on the built-in planner step with a constant provider. -/
theorem llm_step_generates_witness :
    executeLlmStep (fun _ _ => .ok "the plan") "/ws" plannerStep
      = .ok ({ generated_content := some "the plan", model := some "gemma3:27b",
               content_length := some ("the plan").length,
               artifact_path := some ("/ws" ++ "/" ++ "PLAN.md"),
               artifact_type := some "generated_file" },
             [("/ws" ++ "/" ++ "PLAN.md", "the plan")]) :=
  (llm_step_generates (fun _ _ => .ok "the plan") "/ws" plannerStep "gemma3:27b"
      "You are a software architect planning a Quarkus project with GraphQL and OpenTelemetry."
      "the plan" rfl (by decide) rfl (by decide) rfl).2 "PLAN.md" (by decide) rfl

/-- C8.  Model override resolution: `apply_model_overrides` rewrites every
LLM step's model to the `resolveLlmModel` priority chain (non-LLM steps
keep theirs), and for a step whose lowercased name is "planner" the chain
picks the run option when present and non-empty, otherwise the
environment default when present and non-empty, otherwise the step's own
built-in model. -/
theorem model_override_priority (envPlanner envCoder : Option String)
    (ov : List (String × String)) (s : WfStep) :
    (∀ wf : Workflow,
      (applyModelOverrides envPlanner envCoder wf (some ov)).steps.map (fun x => x.model)
        = wf.steps.map (fun x =>
            if x.step_type ≠ "llm_generate" then x.model
            else resolveLlmModel ov envPlanner envCoder x))
    ∧ (strLower s.name = "planner" →
        (∀ c, lookupStr ov "planner" = some c → c ≠ "" →
          resolveLlmModel ov envPlanner envCoder s = some c)
        ∧ ((lookupStr ov "planner" = none ∨ lookupStr ov "planner" = some "") →
            ∀ b, envPlanner = some b → b ≠ "" →
            resolveLlmModel ov envPlanner envCoder s = some b)
        ∧ ((lookupStr ov "planner" = none ∨ lookupStr ov "planner" = some "") →
            (envPlanner = none ∨ envPlanner = some "") →
            resolveLlmModel ov envPlanner envCoder s = s.model)) := by
  constructor
  · intro wf
    simp only [applyModelOverrides, List.map_map]
    apply List.map_congr_left
    intro x _
    by_cases hty : x.step_type ≠ "llm_generate"
    · simp [hty]
    · simp only [hty, if_false, reduceIte, Function.comp]
      simp only [ne_eq, Decidable.not_not] at hty
      simp [hty]
  · intro hnm
    refine ⟨?_, ?_, ?_⟩
    · intro c hc hc0
      simp [resolveLlmModel, hnm, hc, hc0]
    · intro hov b hb hb0
      rcases hov with hov | hov <;>
        simp [resolveLlmModel, hnm, hov, hb, hb0]
    · intro hov henv
      rcases hov with hov | hov <;> rcases henv with henv | henv <;>
        simp [resolveLlmModel, hnm, hov, henv]

/-- Witness for C8: planner defaults to gemma3:27b (A); with environment
default llama3 (B) and run option qwen3 (C) the resolution is C; dropping
the option gives B; dropping both gives A. -/
theorem model_override_priority_witness :
    resolveLlmModel [("planner", "qwen3")] (some "llama3") none plannerStep = some "qwen3"
    ∧ resolveLlmModel [] (some "llama3") none plannerStep = some "llama3"
    ∧ resolveLlmModel [] none none plannerStep = some "gemma3:27b"
    ∧ (applyModelOverrides (some "llama3") none
          { name := "w", version := "1", steps := [plannerStep] }
          (some [("planner", "qwen3")])).steps.map (fun x => x.model)
        = [plannerStep].map (fun x =>
            if x.step_type ≠ "llm_generate" then x.model
            else resolveLlmModel [("planner", "qwen3")] (some "llama3") none x) :=
  ⟨((model_override_priority (some "llama3") none [("planner", "qwen3")] plannerStep).2
      (by decide)).1 "qwen3" rfl (by decide),
   ((model_override_priority (some "llama3") none [] plannerStep).2
      (by decide)).2.1 (Or.inl rfl) "llama3" rfl (by decide),
   ((model_override_priority none none [] plannerStep).2
      (by decide)).2.2 (Or.inl rfl) (Or.inl rfl),
   (model_override_priority (some "llama3") none [("planner", "qwen3")] plannerStep).1
      { name := "w", version := "1", steps := [plannerStep] }⟩

/-- Rewriting the matching entries of a JSON object hits the first match. -/
theorem find?_mapSet (l : List (String × String)) (k v : String)
    (h : l.any (fun q => q.1 == k) = true) :
    (l.map (fun q => if q.1 == k then (k, v) else q)).find? (fun q => q.1 == k)
      = some (k, v) := by
  induction l with
  | nil => simp at h
  | cons a t ih =>
    by_cases ha : (a.1 == k) = true
    · simp only [List.map_cons, if_pos ha, List.find?]
      simp
    · have ha' : (a.1 == k) = false := by simpa using ha
      rw [List.map_cons, if_neg ha]
      simp only [List.find?, ha']
      exact ih (by simpa [List.any_cons, ha'] using h)

/-- `options[k] = v` makes a later lookup of `k` return `v`. -/
theorem lookupStr_setKey_same (l : List (String × String)) (k v : String) :
    lookupStr (setKey l k v) k = some v := by
  unfold setKey
  by_cases h : l.any (fun q => q.1 == k) = true
  · rw [if_pos h]
    unfold lookupStr
    rw [find?_mapSet l k v h]
    rfl
  · rw [if_neg h]
    unfold lookupStr
    induction l with
    | nil => simp [List.find?]
    | cons a t ih =>
      have ha : (a.1 == k) = false := by
        by_contra hc
        simp only [Bool.not_eq_false] at hc
        exact h (by simp [List.any_cons, hc])
      simp only [List.cons_append, List.find?, ha]
      exact ih (fun hat => h (by simp [List.any_cons, hat]))

/-- `options[k] = v` leaves lookups of other keys unchanged. -/
theorem lookupStr_setKey_other (l : List (String × String)) (k v k' : String)
    (hne : k' ≠ k) :
    lookupStr (setKey l k v) k' = lookupStr l k' := by
  have hkk : ((k : String) == k') = false := by
    simp only [beq_eq_false_iff_ne, ne_eq]
    intro hc
    exact hne hc.symm
  unfold setKey
  by_cases h : l.any (fun q => q.1 == k) = true
  · rw [if_pos h]
    unfold lookupStr
    clear h
    induction l with
    | nil => rfl
    | cons a t ih =>
      by_cases ha : (a.1 == k) = true
      · have ha' : (a.1 == k') = false := by
          have : a.1 = k := by simpa using ha
          simp [this, hkk]
        simp only [List.map_cons, if_pos ha, List.find?, ha', hkk]
        exact ih
      · have ha0 : (a.1 == k) = false := by simpa using ha
        by_cases ha' : (a.1 == k') = true
        · simp only [List.map_cons, if_neg ha, List.find?, ha']
        · have ha1 : (a.1 == k') = false := by simpa using ha'
          simp only [List.map_cons, if_neg ha, List.find?, ha1]
          exact ih
  · rw [if_neg h]
    unfold lookupStr
    clear h
    induction l with
    | nil => simp [List.find?, hkk]
    | cons a t ih =>
      by_cases ha' : (a.1 == k') = true
      · simp only [List.cons_append, List.find?, ha']
      · have ha1 : (a.1 == k') = false := by simpa using ha'
        simp only [List.cons_append, List.find?, ha1]
        exact ih

/-- Setting a key never empties the object. -/
theorem setKey_ne_nil (l : List (String × String)) (k v : String) :
    setKey l k v ≠ [] := by
  unfold setKey
  by_cases h : l.any (fun q => q.1 == k) = true
  · rw [if_pos h]
    cases l with
    | nil => simp at h
    | cons a t => simp
  · rw [if_neg h]
    simp

/-- C10.  When the project exists: if provider/model resolution succeeds,
the created run's persisted options hold the resolved provider under
"provider" and the resolved model under "model" — whatever options the
request supplied, including none; if resolution fails, the create call is
rejected with a 400 client error carrying the validator's message and
nothing is committed (no run row, no event row — the store is returned
only on success). -/
theorem create_run_persists_resolution
    (validate : Option String → Option String → Except String (String × String))
    (now : String) (db : DB) (req : CreateRunRequest)
    (hproj : (db.projects.find? (fun q => q.id == req.project_id)).isSome = true) :
    (∀ rp rm, validate (lookupStr (req.options.getD []) "provider")
          (lookupStr (req.options.getD []) "model") = .ok (rp, rm) →
      ∃ tr dbf run, createRun validate now db req = .ok (tr, dbf, run)
        ∧ ∃ opts, run.options = some opts
          ∧ lookupStr opts "provider" = some rp
          ∧ lookupStr opts "model" = some rm)
    ∧ (∀ e, validate (lookupStr (req.options.getD []) "provider")
          (lookupStr (req.options.getD []) "model") = .error e →
        createRun validate now db req = .error (400, e)) := by
  rw [Option.isSome_iff_exists] at hproj
  obtain ⟨proj, hprojf⟩ := hproj
  constructor
  · intro rp rm hv
    simp only [createRun, hprojf, hv]
    refine ⟨_, _, _, rfl, ?_⟩
    refine ⟨setKey (setKey (req.options.getD []) "provider" rp) "model" rm, ?_, ?_, ?_⟩
    · simp only [if_neg (setKey_ne_nil _ "model" rm)]
    · rw [lookupStr_setKey_other _ "model" rm "provider" (by decide),
        lookupStr_setKey_same]
    · rw [lookupStr_setKey_same]
  · intro e hv
    simp only [createRun, hprojf, hv]

/-- Witness for C10 on a request without options: the persisted options
hold the resolved defaults, and an unknown provider is rejected with 400. -/
theorem create_run_persists_resolution_witness :
    (∃ tr dbf run,
      createRun (validateProviderModel (fun _ => true) none none) "2026-10-12 00:00"
          dbQueued { project_id := 1, goal := "g" } = .ok (tr, dbf, run)
      ∧ ∃ opts, run.options = some opts
        ∧ lookupStr opts "provider" = some "ollama"
        ∧ lookupStr opts "model" = some "gemma3:27b")
    ∧ createRun (validateProviderModel (fun _ => true) none none) "2026-10-12 00:00"
        dbQueued { project_id := 1, goal := "g", options := some [("provider", "nope")] }
      = .error (400,
          "Unknown provider \x27nope\x27. Available providers: [\x27ollama\x27, \x27gemini\x27]") :=
  ⟨(create_run_persists_resolution (validateProviderModel (fun _ => true) none none)
      "2026-10-12 00:00" dbQueued { project_id := 1, goal := "g" } (by decide)).1
      "ollama" "gemma3:27b" rfl,
   (create_run_persists_resolution (validateProviderModel (fun _ => true) none none)
      "2026-10-12 00:00" dbQueued { project_id := 1, goal := "g", options := some [("provider", "nope")] }
      (by decide)).2 _ rfl⟩
